import Mathlib

/-!
Verification of `src/app/etl_central/assets/ingresos_detallado.py`.

We give a shallow embedding of the four pipeline stages:
extraction (`extract_ingresos_detallado_data`), transformation
(`transform_ingresos_detallado_data`), surrogate-key generation
(`generate_surrogate_key`) and the two loaders (`single_load`, `bulk_load`),
and prove the spec's claims about them.

Modelling conventions:
* Spreadsheet cells are modelled as strings (the Python code applies
  `astype(str)` before every inspection of a cell this development cares
  about); a missing cell reads as the string "nan", which is what
  `astype(str)` renders a pandas NaN as.
* Python values that may be an int or a string (the `cuarto` field) are
  modelled by the sum type `PyVal`.
* Character classes of the Python regexes (`[A-Z]`, `[a-z]`, `\d`, `\w`)
  are modelled over ASCII, matching the data the pipeline handles.
* Raised Python exceptions are modelled by `Except String`.
-/

/-- A dynamically-typed Python cell value: either a string or an integer. -/
inductive PyVal where
  | vStr (s : String)
  | vInt (n : Int)
deriving DecidableEq

/-- `str(v)` on a `PyVal` (Python `astype(str)` / f-string rendering). -/
def str_of_pyval : PyVal → String
  | .vStr s => s
  | .vInt n => toString n

/-- A raw sheet: a 2-D grid of cell values, modelled as rows of strings. -/
abbrev Sheet := List (List String)

/-! ## Regex model

The transform uses three Python regexes:
`al (\d{1,2}) de (\w+) de (\d{4})` (searched anywhere in the header text),
`^([A-Z]\.)` and `^([a-z]\d+\))` (anchored extracts on `Concepto`).
We model `re.search` directly: try to match at every start position, left to
right, with the greedy/backtracking behaviour of the quantifiers.
-/

/-- Python `\w` over ASCII: letter, digit or underscore. -/
def isWordChar (c : Char) : Bool := c.isAlpha || c.isDigit || c == '_'

/-- Match a literal character sequence at the head of the input, returning
the rest of the input on success. -/
def matchLit : List Char → List Char → Option (List Char)
  | [], cs => some cs
  | _ :: _, [] => none
  | l :: ls, c :: cs => if c == l then matchLit ls cs else none

/-- Consume exactly `n` ASCII digits, returning them and the rest. -/
def takeExactDigits : Nat → List Char → Option (List Char × List Char)
  | 0, cs => some ([], cs)
  | _ + 1, [] => none
  | n + 1, c :: cs =>
    if c.isDigit then
      (takeExactDigits n cs).map (fun p => (c :: p.1, p.2))
    else none

/-- Match ` de (\w+) de (\d{4})`, i.e. the part of the date pattern after the
day group, returning the month-word group and the year group.  `\w+` is the
maximal nonempty word-character run: a shorter run would have to be followed
by a space, but by maximality it is followed by a word character, so the
regex backtracking can never accept a shorter run. -/
def matchAfterDay (cs : List Char) : Option (String × String) :=
  match matchLit (" de ".data) cs with
  | none => none
  | some cs1 =>
    let w := cs1.takeWhile isWordChar
    let cs2 := cs1.dropWhile isWordChar
    if w.isEmpty then none
    else
      match matchLit (" de ".data) cs2 with
      | none => none
      | some cs3 =>
        match takeExactDigits 4 cs3 with
        | none => none
        | some (y, _) => some (String.mk w, String.mk y)

/-- Try to match `al (\d{1,2}) de (\w+) de (\d{4})` at the head of the input:
literal `al `, then greedily two digits (backtracking to one), then the rest
of the pattern.  Returns the three capture groups. -/
def matchPatAt (cs : List Char) : Option (String × String × String) :=
  match matchLit ("al ".data) cs with
  | none => none
  | some cs0 =>
    let try1 : Option (String × String × String) :=
      match takeExactDigits 1 cs0 with
      | none => none
      | some (d1, r1) =>
        match matchAfterDay r1 with
        | none => none
        | some (w, y) => some (String.mk d1, w, y)
    match takeExactDigits 2 cs0 with
    | none => try1
    | some (d2, r2) =>
      match matchAfterDay r2 with
      | none => try1
      | some (w, y) => some (String.mk d2, w, y)

/-- `re.search` of the date pattern: try every start position left to right. -/
def searchAux : List Char → Option (String × String × String)
  | [] => none
  | c :: cs =>
    match matchPatAt (c :: cs) with
    | some g => some g
    | none => searchAux cs

/-- `re.search(r'al (\d\x7b1,2\x7d) de (\w+) de (\d\x7b4\x7d)', s)`,
returning the three capture groups of the first match. -/
def searchDatePattern (s : String) : Option (String × String × String) :=
  searchAux s.data

/-- The entries of the fixed 12-entry Spanish month dict of the source. -/
def month_pairs : List (String × Nat) :=
  [("enero", 1), ("febrero", 2), ("marzo", 3), ("abril", 4),
   ("mayo", 5), ("junio", 6), ("julio", 7), ("agosto", 8),
   ("septiembre", 9), ("octubre", 10), ("noviembre", 11), ("diciembre", 12)]

/-- The month lookup (`month_map[...]` in the source). -/
def month_map (s : String) : Option Nat := List.lookup s month_pairs

/-- Zero-pad a natural number to two digits (Python `f"{n:02d}"` for `n ≥ 0`). -/
def pad2 (n : Nat) : String := if n < 10 then "0" ++ toString n else toString n

/-- `^([A-Z]\.)` extracted from the start of `s`: `some` of the matched
prefix, `none` (pandas NaN) when there is no match. -/
def extractPrim (s : String) : Option String :=
  match s.data with
  | c1 :: c2 :: _ =>
    if c1.isUpper && c2 == '.' then some (String.mk [c1, c2]) else none
  | _ => none

/-- `^([a-z]\d+\))` extracted from the start of `s`.  `\d+` is the maximal
nonempty digit run: a shorter run is followed by a digit, which is not `)`,
so regex backtracking can never accept a shorter run. -/
def extractSec (s : String) : Option String :=
  match s.data with
  | [] => none
  | c :: rest =>
    if c.isLower then
      if (rest.takeWhile Char.isDigit).isEmpty then none
      else if (rest.dropWhile Char.isDigit).head? = some ')' then
        some (String.mk (c :: (rest.takeWhile Char.isDigit ++ [')'])))
      else none
    else none

/-! ## Transform -/

/-- One output row of the transform (`DetailRecord` of the spec).  The six
numeric amount columns are carried as raw cell strings; `cuarto` is an int
on the happy path and the empty string on the soft-failure path, hence
`PyVal`. -/
structure DetailRecord where
  concepto : String
  estimado : String
  ampliaciones_reducciones : String
  modificado : String
  devengado : String
  recaudado : String
  diferencia : String
  clave_primaria : Option String
  clave_secundaria : Option String
  fecha : String
  cuarto : PyVal
deriving DecidableEq

/-- Python `str.strip()`: drop leading and trailing whitespace. -/
def pyStrip (s : String) : String :=
  String.mk (((s.data.dropWhile Char.isWhitespace).reverse.dropWhile
    Char.isWhitespace).reverse)

/-- Python `str.lower()` over ASCII letters. -/
def pyLower (s : String) : String := String.mk (s.data.map Char.toLower)

/-- Python `' '.join(...)`. -/
def joinSpace : List String → String
  | [] => ""
  | [s] => s
  | s :: t :: rest => s ++ " " ++ joinSpace (t :: rest)

/-- Python `int(...)` on an all-digit string (the only shape the regex
groups can take). -/
def digitsToNat (ds : List Char) : Nat :=
  ds.foldl (fun a c => a * 10 + (c.toNat - 48)) 0

/-- `df.iloc[3, 1:8].astype(str).str.strip()` joined with `' '`: the
free-text date header. -/
def dateRangeStr (df : Sheet) : String :=
  joinSpace ((((df.getD 3 []).drop 1).take 7).map pyStrip)

/-- Build one `DetailRecord` from the columns `1:8` of a sheet row, with the
shared `fecha`/`cuarto` values.  A cell missing from the grid reads as
pandas NaN, i.e. the string "nan" after `astype(str)`. -/
def mkRecord (fecha : String) (cuarto : PyVal) (row : List String) : DetailRecord :=
  let s := (row.drop 1).take 7
  let g := fun i => s.getD i "nan"
  ⟨g 0, g 1, g 2, g 3, g 4, g 5, g 6,
   extractPrim (g 0), extractSec (g 0), fecha, cuarto⟩

/-- Derivation of the shared `fecha`/`cuarto` pair from the date header
text: `re.search` the date pattern; on a match, look the lowercased month
word up in `month_map` (a missing month is a raised `KeyError`) and format
`f"\x7bday:02d\x7d/\x7bmonth:02d\x7d/\x7byear\x7d"` and the quarter
`(month - 1) // 3 + 1`; on no match, both values are empty strings. -/
def deriveFechaCuarto (s : String) : Except String (String × PyVal) :=
  match searchDatePattern s with
  | some (dStr, monStr, yStr) =>
    match month_map (pyLower monStr) with
    | none => .error ("KeyError: " ++ pyLower monStr)
    | some mn =>
      .ok (pad2 (digitsToNat dStr.data) ++ "/" ++ pad2 mn ++ "/" ++
             toString (digitsToNat yStr.data),
           .vInt (((mn : Int) - 1) / 3 + 1))
  | none => .ok ("", .vStr "")

/-- `transform_ingresos_detallado_data`: parse the date header (row 3,
columns 1:8), derive `fecha`/`cuarto`, then slice rows `7:44` and `45:76`,
columns `1:8`, into `DetailRecord`s and concatenate the two windows. -/
def transform_ingresos_detallado_data (df : Sheet) :
    Except String (List DetailRecord) :=
  match deriveFechaCuarto (dateRangeStr df) with
  | .error e => .error e
  | .ok (fecha, cuarto) =>
    .ok (((df.drop 7).take 37 ++ (df.drop 45).take 31).map
      (mkRecord fecha cuarto))

/-! ## Extract

`extract_ingresos_detallado_data` builds the S3 key, requires a bucket name,
and wraps the whole storage read and spreadsheet parse in a `try/except`
that returns `(pd.DataFrame(), None)` on any exception.  The storage layer
(boto3 + pandas) is abstracted as a `fetch` function from the S3 key to
either a parsed sheet or an error. -/

/-- `reverse_quarter_map.get(quarter, quarter)` in the source. -/
def reverse_quarter_map (quarter : String) : String :=
  if quarter = "Q1" then "1T"
  else if quarter = "Q2" then "2T"
  else if quarter = "Q3" then "3T"
  else if quarter = "Q4" then "4T"
  else quarter

/-- The object key built by `extract_ingresos_detallado_data`. -/
def s3KeyFor (year : Int) (quarter : String) : String :=
  "finanzas/Ingresos_Detallado/raw/F5_Edo_Ana_Ing_Det_LDF_"
    ++ reverse_quarter_map quarter ++ toString year ++ ".xlsx"

/-- `extract_ingresos_detallado_data`.  Returns (sheet, provenance string)
on success, `(empty sheet, none)` on a storage/parse failure (the soft
path), and raises (`Except.error`) a `ValueError` on a bad source or a
missing bucket name. -/
def extract_ingresos_detallado_data (year : Int) (quarter : String)
    (source : String) (bucket_name : Option String)
    (fetch : String → Except String Sheet) :
    Except String (Sheet × Option String) :=
  if source = "s3" then
    match bucket_name with
    | none => .error "ValueError: bucket_name is required for S3 extraction"
    | some b =>
      let key := s3KeyFor year quarter
      match fetch key with
      | .ok df => .ok (df, some ("s3://" ++ b ++ "/" ++ key))
      | .error _ => .ok (([] : Sheet), none)
  else .error "ValueError: Invalid source. Use s3"

/-! ## Surrogate key generation

`generate_surrogate_key` sets
`df["id"] = (Concepto.astype(str) + Fecha.astype(str) + Cuarto.astype(str))
            .apply(lambda x: str(abs(hash(x))))`.
Python's builtin `hash` is a parameter `h` of the model: it is a fixed
function within one process run, but (as §9 of the spec records) it is
salted per process, so different runs use different members of the family. -/

/-- The concatenated business-key string of a record:
`str(concepto) + str(fecha) + str(cuarto)`, no separator. -/
def keyString (r : DetailRecord) : String :=
  r.concepto ++ r.fecha ++ str_of_pyval r.cuarto

/-- The id of one row: `str(abs(hash(keyString)))` for the process hash `h`. -/
def rowKey (h : String → Int) (r : DetailRecord) : String :=
  toString (h (keyString r)).natAbs

/-- `generate_surrogate_key`: annotate every row with its id column. -/
def generate_surrogate_key (h : String → Int) (rows : List DetailRecord) :
    List (DetailRecord × String) :=
  rows.map (fun r => (r, rowKey h r))

/-- Modelled from the spec: Python's builtin string `hash` is "a language's
default string-hashing primitive, which may be randomized per process"
(spec §4.2/§9) — the actual salted SipHash of CPython is not in the
repository, so the per-run salt is made an explicit `seed` and the digest is
a simple seeded polynomial hash standing in for the salted family. -/
def pythonRunHash (seed : Nat) (s : String) : Int :=
  Int.ofNat (s.data.foldl (fun a c => (a * 131 + c.toNat + seed) % 2147483647)
    (seed % 2147483647))

/-- The id a given process run (identified by its hash seed) generates. -/
def runKey (seed : Nat) (r : DetailRecord) : String :=
  rowKey (pythonRunHash seed) r

/-! ## Load

Rows reaching the loaders are dict records keyed by column name; all the
loader logic inspects is the primary-key column `id`, so a database row is
modelled as an `id` plus the list of its non-key column values.

`single_load` issues one `INSERT ... ON CONFLICT (id) DO UPDATE SET
<every non-id column> = excluded.<column>` statement and commits.
PostgreSQL raises when two rows of a single such statement carry the same
`id` ("ON CONFLICT DO UPDATE command cannot affect row a second time"), so
the model returns an error when the input ids are not pairwise distinct,
and otherwise folds an insert-or-update of each row over the relation.

`bulk_load` opens one connection, issues `TRUNCATE`, then the insert, then
`commit()`.  SQLAlchemy runs all statements of the connection in one
transaction; if any insert raises, `commit()` is never reached and closing
the connection rolls the transaction (including the truncate) back.  The
model makes the transaction explicit: the insert phase works on a truncated
working copy and only a fully successful phase replaces the durable
relation. -/

/-- A persisted database row: primary key `id` plus non-key column values. -/
structure DbRow where
  id : String
  cols : List PyVal
deriving DecidableEq

/-- Insert-or-update of a single row, keyed on `id`: if the id is present,
every non-key column of the matching row is overwritten; otherwise the row
is appended. -/
def upsertRow (r : DbRow) (rel : List DbRow) : List DbRow :=
  if rel.any (fun x => x.id == r.id) then
    rel.map (fun x => if x.id == r.id then ⟨r.id, r.cols⟩ else x)
  else rel ++ [r]

/-- `single_load` (upsert): one set-based `INSERT ... ON CONFLICT DO
UPDATE`; errors when the input carries a duplicate id, as PostgreSQL does. -/
def single_load (rows rel : List DbRow) : Except String (List DbRow) :=
  if (rows.map DbRow.id).Nodup then
    .ok (rows.foldl (fun acc r => upsertRow r acc) rel)
  else
    .error "RuntimeError: Single load (upsert) failed: ON CONFLICT DO UPDATE cannot affect row a second time"

/-- The insert phase of `bulk_load` on the truncated working copy: appends
rows one at a time; `none` as soon as a row fails to write. -/
def insertAll (writeOk : DbRow → Bool) : List DbRow → List DbRow → Option (List DbRow)
  | [], acc => some acc
  | r :: rs, acc =>
    if writeOk r then insertAll writeOk rs (acc ++ [r]) else none

/-- `bulk_load` (overwrite): truncate and reinsert inside one transaction;
per-row write outcomes are the oracle `writeOk`.  Returns the durable
relation after the call together with the raised error, if any: on failure
the transaction rolls back, so the durable relation is the input one. -/
def bulk_load (writeOk : DbRow → Bool) (rows rel : List DbRow) :
    List DbRow × Option String :=
  match insertAll writeOk rows [] with
  | some w => (w, none)
  | none => (rel, some "RuntimeError: Bulk load failed")

/-! ## Helper lemmas -/

theorem insertAll_eq_none_iff (writeOk : DbRow → Bool) (rows acc : List DbRow) :
    insertAll writeOk rows acc = none ↔ ∃ r ∈ rows, writeOk r = false := by
  induction rows generalizing acc with
  | nil => simp [insertAll]
  | cons a as ih =>
    by_cases ha : writeOk a
    · simp [insertAll, ha, ih]
    · simp only [Bool.not_eq_true] at ha
      simp [insertAll, ha]

/-! ## Claim theorems: extraction -/

/-- Claim C8: for every object-storage read or parse failure during
extraction (with a bucket name supplied), extraction returns an empty
record set together with a null provenance value and never raises. -/
theorem C8_extraction_soft_failure (year : Int) (quarter b e : String)
    (fetch : String → Except String Sheet)
    (hf : fetch (s3KeyFor year quarter) = .error e) :
    extract_ingresos_detallado_data year quarter "s3" (some b) fetch =
      .ok (([] : Sheet), none) := by
  simp [extract_ingresos_detallado_data, hf]

theorem C8_witness :
    (fun _ : String => (.error "storage failure" : Except String Sheet))
        (s3KeyFor 2024 "Q1") = .error "storage failure" ∧
    extract_ingresos_detallado_data 2024 "Q1" "s3" (some "bucket")
        (fun _ => .error "storage failure") = .ok (([] : Sheet), none) :=
  ⟨rfl, C8_extraction_soft_failure 2024 "Q1" "bucket" "storage failure"
    (fun _ => .error "storage failure") rfl⟩

/-- Claim C10: for source "s3" with no bucket name supplied, extraction
raises a ValueError before any storage access — the result is the
ValueError for every storage behaviour, hence independent of the storage
layer (no access can have happened). -/
theorem C10_missing_bucket_valueerror (year : Int) (quarter : String)
    (fetch1 fetch2 : String → Except String Sheet) :
    extract_ingresos_detallado_data year quarter "s3" none fetch1 =
      .error "ValueError: bucket_name is required for S3 extraction" ∧
    extract_ingresos_detallado_data year quarter "s3" none fetch1 =
      extract_ingresos_detallado_data year quarter "s3" none fetch2 := by
  constructor <;> simp [extract_ingresos_detallado_data]

/-! ## Claim theorems: surrogate key -/

/-- Claim C4: for every row, the generated id equals the decimal string
representation of a non-negative integer, namely the absolute value of the
hash of the separator-free concatenation of the string forms of `concepto`,
`fecha`, `cuarto` in that order; and the generator is total — it produces an
id for every input row, whatever the values. -/
theorem C4_id_shape (h : String → Int) (rows : List DetailRecord) :
    (generate_surrogate_key h rows).length = rows.length ∧
    ∀ p ∈ generate_surrogate_key h rows,
      ∃ n : Nat, p.2 = toString n ∧
        (n : Int) =
          |h (p.1.concepto ++ p.1.fecha ++ str_of_pyval p.1.cuarto)| := by
  constructor
  · simp [generate_surrogate_key]
  · intro p hp
    simp only [generate_surrogate_key, List.mem_map] at hp
    obtain ⟨r, _, rfl⟩ := hp
    exact ⟨(h (keyString r)).natAbs, rfl, (Int.abs_eq_natAbs _).symm⟩

/-- Claim C2 (refuting the claim as stated, exhibiting the code bug): the
id the code generates for the business key
(`"A. Impuestos"`, `"15/03/2024"`, `1`) differs between a process run whose
hash salt is 0 and one whose salt is 1, so the id is not stable across
process runs as the spec requires. -/
theorem C2_id_differs_across_runs :
    runKey 0 ⟨"A. Impuestos", "", "", "", "", "", "", none, none,
        "15/03/2024", .vInt 1⟩ ≠
    runKey 1 ⟨"A. Impuestos", "", "", "", "", "", "", none, none,
        "15/03/2024", .vInt 1⟩ := by decide

/-! ## Claim theorems: load -/

/-- Claim C3: overwrite is atomic — for every input row set, if any write
fails during the overwrite operation, the destructive delete is rolled back
and the target relation after the failed call is identical to its contents
before the call, with the failure reported as a wrapped error. -/
theorem C3_overwrite_atomic (writeOk : DbRow → Bool) (rows rel : List DbRow)
    (h : ∃ r ∈ rows, writeOk r = false) :
    bulk_load writeOk rows rel = (rel, some "RuntimeError: Bulk load failed") := by
  have hnone : insertAll writeOk rows [] = none :=
    (insertAll_eq_none_iff writeOk rows []).mpr h
  simp [bulk_load, hnone]

theorem C3_witness :
    (∃ r ∈ [(⟨"1", []⟩ : DbRow), ⟨"2", []⟩],
        (fun x : DbRow => x.id == "1") r = false) ∧
    bulk_load (fun x : DbRow => x.id == "1") [⟨"1", []⟩, ⟨"2", []⟩]
        [⟨"old", [.vInt 7]⟩] =
      ([⟨"old", [.vInt 7]⟩], some "RuntimeError: Bulk load failed") :=
  ⟨⟨⟨"2", []⟩, by decide, by decide⟩,
   C3_overwrite_atomic _ _ _ ⟨⟨"2", []⟩, by decide, by decide⟩⟩

/-! ## Claim theorems: transform date handling -/

theorem lookup_bounded (l : List (String × Nat)) (s : String) (mn : Nat)
    (hall : ∀ p ∈ l, 1 ≤ p.2 ∧ p.2 ≤ 12) (h : List.lookup s l = some mn) :
    1 ≤ mn ∧ mn ≤ 12 := by
  induction l with
  | nil => exact Option.noConfusion h
  | cons p ps ih =>
    rw [List.lookup] at h
    cases hb : (s == p.1) with
    | true =>
      rw [hb] at h
      injection h with h2
      subst h2
      exact hall p (List.mem_cons_self p ps)
    | false =>
      rw [hb] at h
      exact ih (fun q hq => hall q (List.mem_cons_of_mem p hq)) h

theorem month_map_range (s : String) (mn : Nat) (h : month_map s = some mn) :
    1 ≤ mn ∧ mn ≤ 12 :=
  lookup_bounded month_pairs s mn (by decide) h

theorem deriveFechaCuarto_keyerror (s dStr monStr yStr : String)
    (hs : searchDatePattern s = some (dStr, monStr, yStr))
    (hm : month_map (pyLower monStr) = none) :
    deriveFechaCuarto s = .error ("KeyError: " ++ pyLower monStr) := by
  simp only [deriveFechaCuarto, hs, hm]

theorem deriveFechaCuarto_none (s : String)
    (hs : searchDatePattern s = none) :
    deriveFechaCuarto s = .ok ("", .vStr "") := by
  simp only [deriveFechaCuarto, hs]

theorem deriveFechaCuarto_some (s dStr monStr yStr : String) (mn : Nat)
    (hs : searchDatePattern s = some (dStr, monStr, yStr))
    (hm : month_map (pyLower monStr) = some mn) :
    deriveFechaCuarto s =
      .ok (pad2 (digitsToNat dStr.data) ++ "/" ++ pad2 mn ++ "/" ++
             toString (digitsToNat yStr.data),
           .vInt (((mn : Int) - 1) / 3 + 1)) := by
  simp only [deriveFechaCuarto, hs, hm]

/-- Claim C9: when the header date text matches the pattern but the
lowercased month word is not in the fixed lookup, the transform raises a
KeyError instead of applying the soft-failure policy. -/
theorem C9_unknown_month_keyerror (df : Sheet) (dStr monStr yStr : String)
    (hs : searchDatePattern (dateRangeStr df) = some (dStr, monStr, yStr))
    (hm : month_map (pyLower monStr) = none) :
    transform_ingresos_detallado_data df =
      .error ("KeyError: " ++ pyLower monStr) := by
  unfold transform_ingresos_detallado_data
  rw [deriveFechaCuarto_keyerror _ _ _ _ hs hm]

theorem C9_witness :
    searchDatePattern (dateRangeStr [[], [], [], ["x", "al 15 de 123 de 2024"]]) =
      some ("15", "123", "2024") ∧
    month_map (pyLower "123") = none ∧
    transform_ingresos_detallado_data [[], [], [], ["x", "al 15 de 123 de 2024"]] =
      .error ("KeyError: " ++ pyLower "123") :=
  ⟨by decide, by decide,
   C9_unknown_month_keyerror [[], [], [], ["x", "al 15 de 123 de 2024"]]
     "15" "123" "2024" (by decide) (by decide)⟩

/-- Claim C7: if the header date text does not match the pattern, the
transform completes without failing and sets `fecha` and `cuarto` to empty
values on every output row. -/
theorem C7_soft_failure_empty_date (df : Sheet)
    (hs : searchDatePattern (dateRangeStr df) = none) :
    ∃ recs, transform_ingresos_detallado_data df = .ok recs ∧
      ∀ r ∈ recs, r.fecha = "" ∧ r.cuarto = .vStr "" := by
  refine ⟨((df.drop 7).take 37 ++ (df.drop 45).take 31).map
    (mkRecord "" (.vStr "")), ?_, ?_⟩
  · unfold transform_ingresos_detallado_data
    rw [deriveFechaCuarto_none _ hs]
  · intro r hr
    obtain ⟨row, -, rfl⟩ := List.mem_map.mp hr
    exact ⟨rfl, rfl⟩

theorem C7_witness :
    searchDatePattern (dateRangeStr
      [[], [], [], ["x", "hola"], [], [], [],
       ["", "A. Impuestos", "1", "2", "3", "4", "5", "6"]]) = none ∧
    ∃ recs, transform_ingresos_detallado_data
      [[], [], [], ["x", "hola"], [], [], [],
       ["", "A. Impuestos", "1", "2", "3", "4", "5", "6"]] = .ok recs ∧
      ∀ r ∈ recs, r.fecha = "" ∧ r.cuarto = .vStr "" :=
  ⟨by decide,
   C7_soft_failure_empty_date
     [[], [], [], ["x", "hola"], [], [], [],
      ["", "A. Impuestos", "1", "2", "3", "4", "5", "6"]] (by decide)⟩

/-- Claim C6: when the header text matches the date pattern with a
recognized month name, every output row gets `fecha` in zero-padded
DD/MM/YYYY form and `cuarto` equal to the quarter (1–4) of that month. -/
theorem C6_matched_header_date (df : Sheet) (dStr monStr yStr : String) (mn : Nat)
    (hs : searchDatePattern (dateRangeStr df) = some (dStr, monStr, yStr))
    (hm : month_map (pyLower monStr) = some mn) :
    ∃ recs, transform_ingresos_detallado_data df = .ok recs ∧
      (1 ≤ ((mn : Int) - 1) / 3 + 1 ∧ ((mn : Int) - 1) / 3 + 1 ≤ 4) ∧
      ∀ r ∈ recs,
        r.fecha = pad2 (digitsToNat dStr.data) ++ "/" ++ pad2 mn ++ "/" ++
          toString (digitsToNat yStr.data) ∧
        r.cuarto = .vInt (((mn : Int) - 1) / 3 + 1) := by
  refine ⟨((df.drop 7).take 37 ++ (df.drop 45).take 31).map
    (mkRecord (pad2 (digitsToNat dStr.data) ++ "/" ++ pad2 mn ++ "/" ++
        toString (digitsToNat yStr.data)) (.vInt (((mn : Int) - 1) / 3 + 1))),
    ?_, ?_, ?_⟩
  · unfold transform_ingresos_detallado_data
    rw [deriveFechaCuarto_some _ _ _ _ _ hs hm]
  · have hb := month_map_range _ _ hm
    omega
  · intro r hr
    obtain ⟨row, -, rfl⟩ := List.mem_map.mp hr
    exact ⟨rfl, rfl⟩

theorem C6_witness :
    ∃ recs, transform_ingresos_detallado_data
        [[], [], [], ["x", "Total al 15 de marzo de 2024"], [], [], [],
         ["", "A. Impuestos", "1", "2", "3", "4", "5", "6"]] = .ok recs ∧
      (1 ≤ (((3 : Nat) : Int) - 1) / 3 + 1 ∧ (((3 : Nat) : Int) - 1) / 3 + 1 ≤ 4) ∧
      ∀ r ∈ recs, r.fecha = "15/03/2024" ∧ r.cuarto = .vInt 1 := by
  have h := C6_matched_header_date
    [[], [], [], ["x", "Total al 15 de marzo de 2024"], [], [], [],
     ["", "A. Impuestos", "1", "2", "3", "4", "5", "6"]]
    "15" "marzo" "2024" 3 (by decide) (by decide)
  exact h

/-! ## Claim theorems: clave extraction -/

/-- The claim's wording for the primary code: the string starts with one
uppercase letter followed by a period. -/
def startsUpperDot (s : String) : Prop :=
  ∃ c rest, s.data = c :: '.' :: rest ∧ c.isUpper

/-- The claim's wording for the secondary code: the string starts with a
lowercase letter, one or more digits, then a closing parenthesis. -/
def startsLowerDigitsParen (s : String) : Prop :=
  ∃ c ds rest, s.data = c :: (ds ++ ')' :: rest) ∧ c.isLower ∧ ds ≠ [] ∧
    ∀ d ∈ ds, d.isDigit

theorem takeWhile_all_append (p : Char → Bool) (ds t : List Char) (x : Char)
    (hds : ∀ d ∈ ds, p d = true) (hx : p x = false) :
    (ds ++ x :: t).takeWhile p = ds ∧ (ds ++ x :: t).dropWhile p = x :: t := by
  induction ds with
  | nil => simp [List.takeWhile_cons, List.dropWhile_cons, hx]
  | cons a as ih =>
    have ha : p a = true := hds a (List.mem_cons_self a as)
    have has := ih (fun d hd => hds d (List.mem_cons_of_mem a hd))
    simp [List.takeWhile_cons, List.dropWhile_cons, ha, has.1, has.2]

theorem extractPrim_isSome_iff (s : String) :
    (extractPrim s).isSome ↔ startsUpperDot s := by
  unfold extractPrim startsUpperDot
  cases h : s.data with
  | nil => simp
  | cons c1 tl =>
    cases tl with
    | nil => simp
    | cons c2 rest =>
      by_cases h1 : c1.isUpper <;> by_cases h2 : c2 = '.' <;> simp [h1, h2]

theorem extractSec_isSome_iff (s : String) :
    (extractSec s).isSome ↔ startsLowerDigitsParen s := by
  unfold extractSec startsLowerDigitsParen
  cases h : s.data with
  | nil => simp
  | cons c rest =>
    by_cases hl : c.isLower
    case neg =>
      constructor
      · intro hsome
        simp [hl] at hsome
      · rintro ⟨c2, ds, r2, heq, hlow, -, -⟩
        injection heq with h1 h2
        rw [h1] at hl
        exact absurd hlow hl
    case pos =>
      constructor
      · intro hsome
        by_cases he : (rest.takeWhile Char.isDigit).isEmpty
        · simp [hl, he] at hsome
        · by_cases hh : (rest.dropWhile Char.isDigit).head? = some ')'
          · obtain ⟨t, ht⟩ : ∃ t, rest.dropWhile Char.isDigit = ')' :: t := by
              cases hd : rest.dropWhile Char.isDigit with
              | nil => rw [hd] at hh; exact absurd hh (by simp)
              | cons a t =>
                rw [hd] at hh
                simp at hh
                exact ⟨t, by rw [hh]⟩
            have hsplit : rest = rest.takeWhile Char.isDigit ++ ')' :: t := by
              conv_lhs => rw [← List.takeWhile_append_dropWhile Char.isDigit rest]
              rw [ht]
            refine ⟨c, rest.takeWhile Char.isDigit, t, by rw [← hsplit], hl,
              ?_, fun d hd => List.mem_takeWhile_imp hd⟩
            intro hnil
            rw [hnil] at he
            exact he rfl
          · simp [hl, he, hh] at hsome
      · rintro ⟨c2, ds, r2, heq, hlow, hne, hdig⟩
        obtain ⟨hc, hrest⟩ : c = c2 ∧ rest = ds ++ ')' :: r2 := by
          injection heq with h1 h2
          exact ⟨h1, h2⟩
        have hta := takeWhile_all_append Char.isDigit ds r2 ')' hdig (by decide)
        rw [hrest]
        simp [hl, hta.1, hta.2, hne]

theorem extractPrim_eq (s : String) (c : Char) (rest : List Char)
    (h : s.data = c :: '.' :: rest) (hu : c.isUpper) :
    extractPrim s = some (String.mk [c, '.']) := by
  unfold extractPrim
  rw [h]
  simp [hu]

theorem extractSec_eq (s : String) (c : Char) (ds rest : List Char)
    (h : s.data = c :: (ds ++ ')' :: rest)) (hl : c.isLower) (hne : ds ≠ [])
    (hdig : ∀ d ∈ ds, d.isDigit) :
    extractSec s = some (String.mk (c :: (ds ++ [')']))) := by
  unfold extractSec
  rw [h]
  have hta := takeWhile_all_append Char.isDigit ds rest ')' hdig (by decide)
  simp [hl, hta.1, hta.2, hne]

theorem transform_ok_shape (df : Sheet) (recs : List DetailRecord)
    (hok : transform_ingresos_detallado_data df = .ok recs) :
    ∃ f q, recs =
      ((df.drop 7).take 37 ++ (df.drop 45).take 31).map (mkRecord f q) := by
  unfold transform_ingresos_detallado_data at hok
  cases hd : deriveFechaCuarto (dateRangeStr df) with
  | error e =>
    rw [hd] at hok
    simp at hok
  | ok fc =>
    obtain ⟨fecha, cuarto⟩ := fc
    rw [hd] at hok
    exact ⟨fecha, cuarto, (Except.ok.inj hok).symm⟩

/-- Claim C5: for every transformed row, `clave_primaria` is non-empty
exactly when `concepto` starts with one uppercase letter followed by a
period, and `clave_secundaria` is non-empty exactly when it starts with a
lowercase letter, one or more digits, then a closing parenthesis; when
non-empty each equals the matched prefix. -/
theorem C5_clave_patterns (df : Sheet) (recs : List DetailRecord)
    (hok : transform_ingresos_detallado_data df = .ok recs) :
    ∀ r ∈ recs,
      ((r.clave_primaria).isSome ↔ startsUpperDot r.concepto) ∧
      ((r.clave_secundaria).isSome ↔ startsLowerDigitsParen r.concepto) ∧
      (∀ c rest, r.concepto.data = c :: '.' :: rest → c.isUpper →
        r.clave_primaria = some (String.mk [c, '.'])) ∧
      (∀ c ds rest, r.concepto.data = c :: (ds ++ ')' :: rest) → c.isLower →
        ds ≠ [] → (∀ d ∈ ds, d.isDigit) →
        r.clave_secundaria = some (String.mk (c :: (ds ++ [')'])))) := by
  obtain ⟨f, q, rfl⟩ := transform_ok_shape df recs hok
  intro r hr
  obtain ⟨row, -, rfl⟩ := List.mem_map.mp hr
  exact ⟨extractPrim_isSome_iff _, extractSec_isSome_iff _,
    fun c rest h hu => extractPrim_eq _ c rest h hu,
    fun c ds rest h hl hne hdig => extractSec_eq _ c ds rest h hl hne hdig⟩

theorem C5_witness :
    ∃ recs, transform_ingresos_detallado_data
        [[], [], [], ["x", "hi"], [], [], [],
         ["", "A. Impuestos", "1", "2", "3", "4", "5", "6"],
         ["", "a12) Rentas", "1", "2", "3", "4", "5", "6"]] = .ok recs ∧
      ∀ r ∈ recs,
        ((r.clave_primaria).isSome ↔ startsUpperDot r.concepto) ∧
        ((r.clave_secundaria).isSome ↔ startsLowerDigitsParen r.concepto) ∧
        (∀ c rest, r.concepto.data = c :: '.' :: rest → c.isUpper →
          r.clave_primaria = some (String.mk [c, '.'])) ∧
        (∀ c ds rest, r.concepto.data = c :: (ds ++ ')' :: rest) → c.isLower →
          ds ≠ [] → (∀ d ∈ ds, d.isDigit) →
          r.clave_secundaria = some (String.mk (c :: (ds ++ [')'])))) :=
  ⟨_, rfl, C5_clave_patterns
    [[], [], [], ["x", "hi"], [], [], [],
     ["", "A. Impuestos", "1", "2", "3", "4", "5", "6"],
     ["", "a12) Rentas", "1", "2", "3", "4", "5", "6"]] _ rfl⟩

/-! ## Claim theorems: upsert idempotence -/

theorem any_id_eq_mem (r : DbRow) (rel : List DbRow) :
    (rel.any (fun x => x.id == r.id)) = true ↔ r.id ∈ rel.map DbRow.id := by
  simp [List.any_eq_true, List.mem_map]

theorem upsertRow_ids (r : DbRow) (rel : List DbRow) :
    (upsertRow r rel).map DbRow.id =
      if r.id ∈ rel.map DbRow.id then rel.map DbRow.id
      else rel.map DbRow.id ++ [r.id] := by
  unfold upsertRow
  by_cases hmem : r.id ∈ rel.map DbRow.id
  · rw [if_pos ((any_id_eq_mem r rel).mpr hmem), if_pos hmem, List.map_map]
    have hcongr : ∀ x ∈ rel,
        (DbRow.id ∘ fun x => if x.id == r.id then (⟨r.id, r.cols⟩ : DbRow) else x) x =
          DbRow.id x := by
      intro x hx
      simp only [Function.comp_apply]
      by_cases hxe : x.id = r.id
      · rw [if_pos (beq_iff_eq.mpr hxe)]
        exact hxe.symm
      · rw [if_neg (by simp [hxe])]
    exact List.map_congr_left hcongr
  · rw [if_neg (fun h => hmem ((any_id_eq_mem r rel).mp h)), if_neg hmem,
      List.map_append]
    rfl

theorem upsertRow_ids_mem (s : String) (r : DbRow) (rel : List DbRow) :
    s ∈ (upsertRow r rel).map DbRow.id ↔ s ∈ rel.map DbRow.id ∨ s = r.id := by
  rw [upsertRow_ids]
  by_cases hmem : r.id ∈ rel.map DbRow.id
  · rw [if_pos hmem]
    constructor
    · exact Or.inl
    · rintro (h | rfl)
      · exact h
      · exact hmem
  · rw [if_neg hmem]
    simp

theorem upsertRow_nodup (r : DbRow) (rel : List DbRow)
    (h : (rel.map DbRow.id).Nodup) :
    ((upsertRow r rel).map DbRow.id).Nodup := by
  rw [upsertRow_ids]
  by_cases hmem : r.id ∈ rel.map DbRow.id
  · rw [if_pos hmem]
    exact h
  · rw [if_neg hmem, List.nodup_append]
    refine ⟨h, List.nodup_singleton _, ?_⟩
    intro a ha hb
    rw [List.mem_singleton] at hb
    subst hb
    exact hmem ha

theorem upsertRow_self_mem (r : DbRow) (rel : List DbRow) : r ∈ upsertRow r rel := by
  unfold upsertRow
  by_cases hany : rel.any (fun x => x.id == r.id) = true
  · rw [if_pos hany]
    rw [List.any_eq_true] at hany
    obtain ⟨x, hx, he⟩ := hany
    rw [beq_iff_eq] at he
    refine List.mem_map.mpr ⟨x, hx, ?_⟩
    rw [if_pos (beq_iff_eq.mpr he)]
  · rw [if_neg hany]
    exact List.mem_append_right rel (by simp)

theorem upsertRow_other_mem (t r : DbRow) (rel : List DbRow)
    (ht : t ∈ rel) (hne : t.id ≠ r.id) : t ∈ upsertRow r rel := by
  unfold upsertRow
  by_cases hany : rel.any (fun x => x.id == r.id) = true
  · rw [if_pos hany]
    exact List.mem_map.mpr ⟨t, ht, by simp [hne]⟩
  · rw [if_neg hany]
    exact List.mem_append_left _ ht

theorem foldl_upsert_stable (rows : List DbRow) (t : DbRow)
    (hid : t.id ∉ rows.map DbRow.id) :
    ∀ rel, t ∈ rel → t ∈ rows.foldl (fun acc r => upsertRow r acc) rel := by
  induction rows with
  | nil => intro rel ht; exact ht
  | cons a as ih =>
    rw [List.map_cons, List.mem_cons] at hid
    push_neg at hid
    intro rel ht
    simp only [List.foldl_cons]
    exact ih hid.2 (upsertRow a rel) (upsertRow_other_mem t a rel ht hid.1)

theorem foldl_upsert_mem (rows : List DbRow)
    (hnd : (rows.map DbRow.id).Nodup) :
    ∀ rel, ∀ r ∈ rows, r ∈ rows.foldl (fun acc r => upsertRow r acc) rel := by
  induction rows with
  | nil => intro rel r hr; cases hr
  | cons a as ih =>
    rw [List.map_cons, List.nodup_cons] at hnd
    intro rel r hr
    simp only [List.foldl_cons]
    rcases List.mem_cons.mp hr with rfl | hras
    · exact foldl_upsert_stable as r hnd.1 (upsertRow r rel) (upsertRow_self_mem r rel)
    · exact ih hnd.2 (upsertRow a rel) r hras

theorem upsertRow_of_mem_nodup (r : DbRow) (rel : List DbRow)
    (hmem : r ∈ rel) (hnd : (rel.map DbRow.id).Nodup) : upsertRow r rel = rel := by
  unfold upsertRow
  rw [if_pos ((any_id_eq_mem r rel).mpr (List.mem_map.mpr ⟨r, hmem, rfl⟩))]
  have hcongr : ∀ x ∈ rel,
      (if x.id == r.id then (⟨r.id, r.cols⟩ : DbRow) else x) = x := by
    intro x hx
    by_cases hxe : x.id = r.id
    · have hxr : x = r := List.inj_on_of_nodup_map hnd hx hmem hxe
      subst hxr
      rw [if_pos (beq_iff_eq.mpr hxe)]
    · rw [if_neg (by simp [hxe])]
  rw [List.map_congr_left hcongr, List.map_id']

theorem foldl_upsert_id (rows rel : List DbRow)
    (hsub : ∀ r ∈ rows, r ∈ rel) (hnd : (rel.map DbRow.id).Nodup) :
    rows.foldl (fun acc r => upsertRow r acc) rel = rel := by
  induction rows with
  | nil => rfl
  | cons a as ih =>
    simp only [List.foldl_cons]
    rw [upsertRow_of_mem_nodup a rel (hsub a (by simp)) hnd]
    exact ih (fun r hr => hsub r (by simp [hr]))

theorem foldl_upsert_nodup (rows : List DbRow) :
    ∀ rel, (rel.map DbRow.id).Nodup →
      ((rows.foldl (fun acc r => upsertRow r acc) rel).map DbRow.id).Nodup := by
  induction rows with
  | nil => intro rel hnd; exact hnd
  | cons a as ih =>
    intro rel hnd
    simp only [List.foldl_cons]
    exact ih _ (upsertRow_nodup a rel hnd)

theorem foldl_upsert_ids_mem (rows : List DbRow) (s : String) :
    ∀ rel, (s ∈ (rows.foldl (fun acc r => upsertRow r acc) rel).map DbRow.id ↔
      s ∈ rel.map DbRow.id ∨ s ∈ rows.map DbRow.id) := by
  induction rows with
  | nil => intro rel; simp
  | cons a as ih =>
    intro rel
    simp only [List.foldl_cons, List.map_cons, List.mem_cons]
    rw [ih (upsertRow a rel), upsertRow_ids_mem]
    tauto

/-- Claim C1: upsert is idempotent — when a load of a row set succeeds, a
second upsert of the same row set leaves the relation exactly as after the
first (per row and per column), the relation has no duplicate ids (exactly
one record per distinct id), and its id set is the union of the
pre-existing ids and the input ids. -/
theorem C1_upsert_idempotent (rows rel rel2 : List DbRow)
    (hrel : (rel.map DbRow.id).Nodup)
    (h1 : single_load rows rel = .ok rel2) :
    single_load rows rel2 = .ok rel2 ∧
    (rel2.map DbRow.id).Nodup ∧
    ∀ s, s ∈ rel2.map DbRow.id ↔ s ∈ rel.map DbRow.id ∨ s ∈ rows.map DbRow.id := by
  unfold single_load at h1 ⊢
  by_cases hnd : (rows.map DbRow.id).Nodup
  · rw [if_pos hnd] at h1
    obtain rfl : rows.foldl (fun acc r => upsertRow r acc) rel = rel2 :=
      Except.ok.inj h1
    refine ⟨?_, foldl_upsert_nodup rows rel hrel, fun s => foldl_upsert_ids_mem rows s rel⟩
    rw [if_pos hnd]
    congr 1
    exact foldl_upsert_id rows _ (foldl_upsert_mem rows hnd rel)
      (foldl_upsert_nodup rows rel hrel)
  · rw [if_neg hnd] at h1
    exact Except.noConfusion h1

theorem C1_witness :
    single_load [(⟨"k1", [.vInt 1]⟩ : DbRow)] [(⟨"k1", [.vInt 1]⟩ : DbRow)] =
      .ok [(⟨"k1", [.vInt 1]⟩ : DbRow)] ∧
    ([(⟨"k1", [.vInt 1]⟩ : DbRow)].map DbRow.id).Nodup ∧
    ∀ s, s ∈ [(⟨"k1", [.vInt 1]⟩ : DbRow)].map DbRow.id ↔
      s ∈ ([] : List DbRow).map DbRow.id ∨
      s ∈ [(⟨"k1", [.vInt 1]⟩ : DbRow)].map DbRow.id :=
  C1_upsert_idempotent [⟨"k1", [.vInt 1]⟩] [] [⟨"k1", [.vInt 1]⟩] (by simp) rfl

theorem C4_witness :
    (generate_surrogate_key (pythonRunHash 0)
        [⟨"A. Impuestos", "", "", "", "", "", "", none, none,
          "15/03/2024", .vInt 1⟩]).length =
      [(⟨"A. Impuestos", "", "", "", "", "", "", none, none,
          "15/03/2024", .vInt 1⟩ : DetailRecord)].length ∧
    ∀ p ∈ generate_surrogate_key (pythonRunHash 0)
        [⟨"A. Impuestos", "", "", "", "", "", "", none, none,
          "15/03/2024", .vInt 1⟩],
      ∃ n : Nat, p.2 = toString n ∧
        (n : Int) =
          |pythonRunHash 0 (p.1.concepto ++ p.1.fecha ++ str_of_pyval p.1.cuarto)| :=
  C4_id_shape (pythonRunHash 0)
    [⟨"A. Impuestos", "", "", "", "", "", "", none, none, "15/03/2024", .vInt 1⟩]

theorem C10_witness :
    extract_ingresos_detallado_data 2024 "Q1" "s3" none
        (fun _ => .ok ([] : Sheet)) =
      .error "ValueError: bucket_name is required for S3 extraction" ∧
    extract_ingresos_detallado_data 2024 "Q1" "s3" none
        (fun _ => .ok ([] : Sheet)) =
      extract_ingresos_detallado_data 2024 "Q1" "s3" none
        (fun _ => .error "storage down") :=
  C10_missing_bucket_valueerror 2024 "Q1" (fun _ => .ok ([] : Sheet))
    (fun _ => .error "storage down")
